import Mathlib

/-!
Verification of the training-database merge engine
(tools/offline/merge_training_dbs.py).

The program merges several schema-identical SQLite stores into one
destination store: sessions are copied with insert-or-ignore keyed on the
string primary key, and the five integer-keyed tables (matches, points,
player_stats, events, debug_events) are copied with fresh primary keys
offset past the destination's current maximum, rewriting foreign keys
through per-pass id maps.

SQLite scalar values other than the keys the program inspects are carried
opaquely; REAL columns are represented as a binary significand/exponent
pair since the merge never computes on them, only round-trips them.
-/

/-- An SQLite scalar value as carried by a column the merge never inspects. -/
inductive Value where
  | null
  | int (i : Int)
  | real (significand : Int) (exponent : Int)
  | text (s : String)
deriving DecidableEq

/-- A row of the sessions table, as selected by copy_sessions. -/
structure SessionRow where
  id : String
  created_at : Value
  session_type : Value
  config_json : Value
  display_name : Value
deriving DecidableEq

/-- A row of the matches table, in the column order of the merge's SELECT. -/
structure MatchRow where
  id : Int
  session_id : Value
  display_name : Value
  seed : Value
  level : Value
  level_name : Value
  left_profile : Value
  right_profile : Value
  score_left : Value
  score_right : Value
  duration_secs : Value
  winner : Value
deriving DecidableEq

/-- A row of the points table. -/
structure PointRow where
  id : Int
  match_id : Option Int
  point_index : Value
  start_time_ms : Value
  end_time_ms : Value
  winner : Value
deriving DecidableEq

/-- A row of the player_stats table. -/
structure PlayerStatsRow where
  id : Int
  match_id : Option Int
  side : Value
  goals : Value
  shots_attempted : Value
  shots_made : Value
  steals_attempted : Value
  steals_successful : Value
  possession_time : Value
  distance_traveled : Value
  jumps : Value
  nav_paths_completed : Value
  nav_paths_failed : Value
  avg_shot_x : Value
  avg_shot_y : Value
  avg_shot_quality : Value
deriving DecidableEq

/-- A row of the events table. -/
structure EventRow where
  id : Int
  match_id : Option Int
  point_id : Option Int
  time_ms : Value
  tick_frame : Value
  event_type : Value
  data : Value
  created_at : Value
deriving DecidableEq

/-- A row of the debug_events table. -/
structure DebugEventRow where
  id : Int
  match_id : Option Int
  time_ms : Value
  tick_frame : Value
  player : Value
  pos_x : Value
  pos_y : Value
  vel_x : Value
  vel_y : Value
  input_move_x : Value
  input_jump : Value
  grounded : Value
  is_jumping : Value
  coyote_timer : Value
  jump_buffer_timer : Value
  facing : Value
  nav_active : Value
  nav_path_index : Value
  nav_action : Value
  level_id : Value
  human_controlled : Value
  created_at : Value
deriving DecidableEq

/-- One database (a source store or the destination store): the six tables
of the shared schema. -/
structure Store where
  sessions : List SessionRow
  matches' : List MatchRow
  points : List PointRow
  player_stats : List PlayerStatsRow
  events : List EventRow
  debug_events : List DebugEventRow
deriving DecidableEq

/-- A freshly created destination store after the schema script ran:
all six tables exist and are empty. -/
def emptyStore : Store :=
  { sessions := [], matches' := [], points := [],
    player_stats := [], events := [], debug_events := [] }

/-- SELECT COALESCE(MAX(id), 0): the maximum of the id column, or 0 when
the table is empty (max_id in the script). -/
def max_id : List Int → Int
  | [] => 0
  | x :: xs => xs.foldl max x

/-- Python dict.get on an optional key: a null key, like a key not present
in the dict, yields None. -/
def dictGet (m : Int → Option Int) : Option Int → Option Int
  | none => none
  | some k => m k

/-- One INSERT OR IGNORE of a sessions row, keyed on the string primary
key: a row whose id is already present leaves the table unchanged. -/
def insertOrIgnoreSession (rows : List SessionRow) (r : SessionRow) : List SessionRow :=
  if rows.any (fun s => s.id = r.id) then rows else rows ++ [r]

/-- copy_sessions: every source sessions row is inserted with
INSERT OR IGNORE semantics, in source order. -/
def copy_sessions (dest src : List SessionRow) : List SessionRow :=
  src.foldl insertOrIgnoreSession dest

/-- The matches copy loop: for idx, row in enumerate(rows, start=1),
assign new_id = offset + idx, record old id to new id in the match map,
and insert the row with the fresh id. Returns the final map and the
inserted rows in insertion order. -/
def copyMatchesAux (offset : Int) (idx : Nat) (mm : Int → Option Int) :
    List MatchRow → (Int → Option Int) × List MatchRow
  | [] => (mm, [])
  | r :: rs =>
    let new_id := offset + (idx : Int)
    let mm' : Int → Option Int := fun k => if k = r.id then some new_id else mm k
    let rec_result := copyMatchesAux offset (idx + 1) mm' rs
    (rec_result.1, { r with id := new_id } :: rec_result.2)

/-- The matches copy, starting from an empty match map and idx = 1. -/
def copyMatches (offset : Int) (rows : List MatchRow) :
    (Int → Option Int) × List MatchRow :=
  copyMatchesAux offset 1 (fun _ => none) rows

/-- The points copy loop: fresh ids as for matches, match_id rewritten
through the match map (dict.get), and the point map populated. -/
def copyPointsAux (offset : Int) (mm : Int → Option Int) (idx : Nat)
    (pm : Int → Option Int) : List PointRow → (Int → Option Int) × List PointRow
  | [] => (pm, [])
  | r :: rs =>
    let new_id := offset + (idx : Int)
    let pm' : Int → Option Int := fun k => if k = r.id then some new_id else pm k
    let rec_result := copyPointsAux offset mm (idx + 1) pm' rs
    (rec_result.1,
      { r with id := new_id, match_id := dictGet mm r.match_id } :: rec_result.2)

/-- The points copy, starting from an empty point map and idx = 1. -/
def copyPoints (offset : Int) (mm : Int → Option Int) (rows : List PointRow) :
    (Int → Option Int) × List PointRow :=
  copyPointsAux offset mm 1 (fun _ => none) rows

/-- The player_stats copy loop: fresh ids, match_id rewritten through the
match map; no map is built for this table. -/
def copyPlayerStatsAux (offset : Int) (mm : Int → Option Int) (idx : Nat) :
    List PlayerStatsRow → List PlayerStatsRow
  | [] => []
  | r :: rs =>
    { r with id := offset + (idx : Int), match_id := dictGet mm r.match_id } ::
      copyPlayerStatsAux offset mm (idx + 1) rs

/-- The player_stats copy starting at idx = 1. -/
def copyPlayerStats (offset : Int) (mm : Int → Option Int)
    (rows : List PlayerStatsRow) : List PlayerStatsRow :=
  copyPlayerStatsAux offset mm 1 rows

/-- The events copy loop: fresh ids, match_id rewritten through the match
map, and point_id rewritten through the point map when the source value is
non-null, kept null otherwise. -/
def copyEventsAux (offset : Int) (mm pm : Int → Option Int) (idx : Nat) :
    List EventRow → List EventRow
  | [] => []
  | r :: rs =>
    { r with
        id := offset + (idx : Int),
        match_id := dictGet mm r.match_id,
        point_id := match r.point_id with
          | none => none
          | some pid => pm pid } ::
      copyEventsAux offset mm pm (idx + 1) rs

/-- The events copy starting at idx = 1. -/
def copyEvents (offset : Int) (mm pm : Int → Option Int)
    (rows : List EventRow) : List EventRow :=
  copyEventsAux offset mm pm 1 rows

/-- The debug_events copy loop: fresh ids, match_id rewritten through the
match map. -/
def copyDebugEventsAux (offset : Int) (mm : Int → Option Int) (idx : Nat) :
    List DebugEventRow → List DebugEventRow
  | [] => []
  | r :: rs =>
    { r with id := offset + (idx : Int), match_id := dictGet mm r.match_id } ::
      copyDebugEventsAux offset mm (idx + 1) rs

/-- The debug_events copy starting at idx = 1. -/
def copyDebugEvents (offset : Int) (mm : Int → Option Int)
    (rows : List DebugEventRow) : List DebugEventRow :=
  copyDebugEventsAux offset mm 1 rows

/-- The table-copying body of merge_db for one present source store:
copy sessions, compute the five offsets from the destination, copy the
five integer-keyed tables in dependency order rewriting foreign keys
through the per-pass maps. -/
def merge_db_tables (dest src : Store) : Store :=
  let match_offset := max_id (dest.matches'.map MatchRow.id)
  let point_offset := max_id (dest.points.map PointRow.id)
  let player_stats_offset := max_id (dest.player_stats.map PlayerStatsRow.id)
  let events_offset := max_id (dest.events.map EventRow.id)
  let debug_offset := max_id (dest.debug_events.map DebugEventRow.id)
  let m := copyMatches match_offset src.matches'
  let p := copyPoints point_offset m.1 src.points
  { sessions := copy_sessions dest.sessions src.sessions,
    matches' := dest.matches' ++ m.2,
    points := dest.points ++ p.2,
    player_stats := dest.player_stats ++ copyPlayerStats player_stats_offset m.1 src.player_stats,
    events := dest.events ++ copyEvents events_offset m.1 p.1 src.events,
    debug_events := dest.debug_events ++ copyDebugEvents debug_offset m.1 src.debug_events }

/-- A source file named in the manifest: its path, and its contents when
the file exists (none models a missing file). -/
structure SrcFile where
  path : String
  contents : Option Store
deriving DecidableEq

/-- merge_db: a missing source is skipped with a notice and the
destination is unchanged; a present source has its tables merged and a
progress line is printed. The second component is the printed output. -/
def merge_db (dest : Store) (s : SrcFile) : Store × List String :=
  match s.contents with
  | none => (dest, ["Skipping missing DB: " ++ s.path])
  | some src => (merge_db_tables dest src, ["Merged " ++ s.path])

/-- The coordinator loop over the manifest entries, threading the
destination and accumulating printed lines. -/
def runMerge (dest : Store) (srcs : List SrcFile) : Store × List String :=
  srcs.foldl (fun acc s =>
    let step := merge_db acc.1 s
    (step.1, acc.2 ++ step.2)) (dest, [])

/-- The destination produced by merging a list of (present) source stores
in order. -/
def mergeList (dest : Store) (srcs : List Store) : Store :=
  srcs.foldl merge_db_tables dest

/-- The destination produced by a failure-free run over manifest entries:
missing sources are skipped, present ones merged. -/
def pureRun (dest : Store) (srcs : List SrcFile) : Store :=
  srcs.foldl (fun d s =>
    match s.contents with
    | none => d
    | some src => merge_db_tables d src) dest

/-- The names of the five integer-keyed tables. -/
inductive Tbl where
  | matches'
  | points
  | player_stats
  | events
  | debug_events
deriving DecidableEq

/-- The id column of one integer-keyed table of a store. -/
def tableIds (d : Store) : Tbl → List Int
  | .matches' => d.matches'.map MatchRow.id
  | .points => d.points.map PointRow.id
  | .player_stats => d.player_stats.map PlayerStatsRow.id
  | .events => d.events.map EventRow.id
  | .debug_events => d.debug_events.map DebugEventRow.id

/-- The number of rows a source store contributes to one integer-keyed
table. -/
def srcCount (s : Store) : Tbl → Nat
  | .matches' => s.matches'.length
  | .points => s.points.length
  | .player_stats => s.player_stats.length
  | .events => s.events.length
  | .debug_events => s.debug_events.length

/-- The ids a batch of k rows receives when copied at a given offset:
offset + 1 through offset + k, in read order. -/
def newIds (offset : Int) (k : Nat) : List Int :=
  (List.range' 1 k).map (fun (n : Nat) => offset + (n : Int))

/-- The canonical id column of a table holding n rows merged into an
initially empty destination: 1 through n. -/
def idSeq (n : Nat) : List Int :=
  (List.range' 1 n).map (fun (m : Nat) => (m : Int))

/-- Python str.strip: drop leading and trailing whitespace characters. -/
def pyStrip (s : String) : String :=
  String.mk (((s.data.dropWhile Char.isWhitespace).reverse.dropWhile
    Char.isWhitespace).reverse)

/-- Python startswith on the one-character string made of the comment
mark: the first character is the comment mark. -/
def startsWithHash (s : String) : Bool :=
  match s.data with
  | [] => false
  | c :: _ => c = '#'

/-- Python split on the comment mark with maxsplit 1, kept prefix: the
text before the first occurrence of the mark (the whole string when the
mark is absent). -/
def beforeHash (s : String) : String :=
  String.mk (s.data.takeWhile (fun c => c ≠ '#'))

/-- One manifest line: strip it, drop it when blank or when its first
non-whitespace character is a comment mark, and otherwise keep the text
before the first comment mark, stripped again. -/
def parseLine (line : String) : Option String :=
  let l := pyStrip line
  if l = "" then none
  else if startsWithHash l then none
  else some (pyStrip (beforeHash l))

/-- Decidable equality of fallible results, to evaluate the loader and
the pipeline on concrete inputs. -/
instance {ε α : Type} [DecidableEq ε] [DecidableEq α] : DecidableEq (Except ε α) :=
  fun x y =>
    match x, y with
    | .ok a, .ok b =>
      if h : a = b then isTrue (h ▸ rfl) else isFalse (fun hh => h (Except.ok.inj hh))
    | .error a, .error b =>
      if h : a = b then isTrue (h ▸ rfl) else isFalse (fun hh => h (Except.error.inj hh))
    | .ok _, .error _ => isFalse (fun hh => Except.noConfusion hh)
    | .error _, .ok _ => isFalse (fun hh => Except.noConfusion hh)

/-- read_db_list: a missing list file raises FileNotFoundError; otherwise
every surviving line of the file yields one store path, in file order. -/
def read_db_list (listPath : String) (file : Option (List String)) :
    Except String (List String) :=
  match file with
  | none => Except.error ("List file not found: " ++ listPath)
  | some lines => Except.ok (lines.filterMap parseLine)

/-- The observable outcome of main: the exit code, the contents of the
output path afterwards, and the printed lines. -/
structure MainResult where
  exitCode : Int
  outFile : Option Store
  printed : List String
deriving DecidableEq

/-- main: read the manifest (propagating a missing-manifest error), exit
with code 1 on an empty manifest, otherwise unlink any existing output
file, connect (creating a fresh empty database), install the schema, and
merge every listed source in order. -/
def main_run (listPath outPath : String) (listFile : Option (List String))
    (fs : String → Option Store) (existing : Option Store) :
    Except String MainResult :=
  match read_db_list listPath listFile with
  | Except.error e => Except.error e
  | Except.ok dbs =>
    if dbs.isEmpty then
      Except.ok { exitCode := 1, outFile := existing, printed := ["No DBs found in list."] }
    else
      let afterUnlink : Option Store := if existing.isSome then none else existing
      let dest0 : Store := afterUnlink.getD emptyStore
      let r := runMerge dest0 (dbs.map (fun p => { path := p, contents := fs p }))
      Except.ok { exitCode := 0, outFile := some r.1,
                  printed := r.2 ++ ["Combined DB written to " ++ outPath] }

/-- Apply a sequence of primitive insert operations to a store. -/
def runOps (d : Store) (ops : List (Store → Store)) : Store :=
  ops.foldl (fun d f => f d) d

/-- The primitive INSERT OR IGNORE statements of the sessions copy. -/
def sessionOps (rows : List SessionRow) : List (Store → Store) :=
  rows.map (fun r d => { d with sessions := insertOrIgnoreSession d.sessions r })

/-- The primitive INSERT statements of the matches copy. -/
def matchInsertOps (rows : List MatchRow) : List (Store → Store) :=
  rows.map (fun r d => { d with matches' := d.matches' ++ [r] })

/-- The primitive INSERT statements of the points copy. -/
def pointInsertOps (rows : List PointRow) : List (Store → Store) :=
  rows.map (fun r d => { d with points := d.points ++ [r] })

/-- The primitive INSERT statements of the player_stats copy. -/
def playerStatsInsertOps (rows : List PlayerStatsRow) : List (Store → Store) :=
  rows.map (fun r d => { d with player_stats := d.player_stats ++ [r] })

/-- The primitive INSERT statements of the events copy. -/
def eventInsertOps (rows : List EventRow) : List (Store → Store) :=
  rows.map (fun r d => { d with events := d.events ++ [r] })

/-- The primitive INSERT statements of the debug_events copy. -/
def debugInsertOps (rows : List DebugEventRow) : List (Store → Store) :=
  rows.map (fun r d => { d with debug_events := d.debug_events ++ [r] })

/-- One merge pass over a present source, decomposed into its sequence of
primitive row insertions, with the five offsets and both id maps computed
exactly as merge_db computes them from the destination at pass start. -/
def passOps (dest src : Store) : List (Store → Store) :=
  let match_offset := max_id (dest.matches'.map MatchRow.id)
  let point_offset := max_id (dest.points.map PointRow.id)
  let player_stats_offset := max_id (dest.player_stats.map PlayerStatsRow.id)
  let events_offset := max_id (dest.events.map EventRow.id)
  let debug_offset := max_id (dest.debug_events.map DebugEventRow.id)
  let m := copyMatches match_offset src.matches'
  let p := copyPoints point_offset m.1 src.points
  sessionOps src.sessions ++
    matchInsertOps m.2 ++
    pointInsertOps p.2 ++
    playerStatsInsertOps (copyPlayerStats player_stats_offset m.1 src.player_stats) ++
    eventInsertOps (copyEvents events_offset m.1 p.1 src.events) ++
    debugInsertOps (copyDebugEvents debug_offset m.1 src.debug_events)

/-- The number of rows of a source store, over all six tables: the number
of primitive insert statements its merge pass issues. -/
def totalRows (s : Store) : Nat :=
  s.sessions.length + s.matches'.length + s.points.length +
    s.player_stats.length + s.events.length + s.debug_events.length

/-- The destination connection: the rows the file durably holds (what
survives closing the connection), and the working state including the
current pass's uncommitted inserts. The same connection reads its own
uncommitted writes, so offsets are taken from the working state. -/
structure Conn where
  committed : Store
  working : Store
deriving DecidableEq

/-- One merge_db call under an injected storage error: a missing source
is skipped; otherwise the pass's inserts run in order and dest.commit()
at the end of the pass publishes them. A storage error raised at insert
number k propagates before the commit, so the file keeps only the
previously committed rows once the connection is closed. -/
def execPass (c : Conn) (s : SrcFile) (failAt : Option Nat) : Except Conn Conn :=
  match s.contents with
  | none => Except.ok c
  | some src =>
    let ops := passOps c.working src
    match failAt with
    | none =>
      let w := runOps c.working ops
      Except.ok { committed := w, working := w }
    | some k =>
      if k < ops.length then
        Except.error { committed := c.committed, working := runOps c.working (ops.take k) }
      else
        let w := runOps c.working ops
        Except.ok { committed := w, working := w }

/-- The coordinator loop with a storage error injected at insert number k
of the pass over source number j (counting from 0): main has no handler
around the loop, so the error propagates and no later source is merged. -/
def mergeRunAborting : Conn → List SrcFile → Option (Nat × Nat) → Except Conn Conn
  | c, [], _ => Except.ok c
  | c, s :: rest, none =>
    match execPass c s none with
    | Except.error e => Except.error e
    | Except.ok c' => mergeRunAborting c' rest none
  | c, s :: rest, some (0, k) =>
    match execPass c s (some k) with
    | Except.error e => Except.error e
    | Except.ok c' => mergeRunAborting c' rest none
  | c, s :: rest, some (j + 1, k) =>
    match execPass c s none with
    | Except.error e => Except.error e
    | Except.ok c' => mergeRunAborting c' rest (some (j, k))

/-- The rows the destination file holds after an aborted run (none when
the run did not abort). -/
def abortedCommitted : Except Conn Conn → Option Store
  | Except.error e => some e.committed
  | Except.ok _ => none

/-- A sessions row with a given id and opaque payload. -/
def sampleSession (sid : String) : SessionRow :=
  { id := sid, created_at := Value.text "t", session_type := Value.text "offline",
    config_json := Value.null, display_name := Value.null }

/-- A matches row with a given id and opaque payload. -/
def sampleMatch (i : Int) : MatchRow :=
  { id := i, session_id := Value.text "s1", display_name := Value.null,
    seed := Value.int 7, level := Value.int 1, level_name := Value.text "L",
    left_profile := Value.text "a", right_profile := Value.text "b",
    score_left := Value.int 0, score_right := Value.int 0,
    duration_secs := Value.real 3 0, winner := Value.text "left" }

/-- A points row with a given id and match reference. -/
def samplePoint (i : Int) (mid : Option Int) : PointRow :=
  { id := i, match_id := mid, point_index := Value.int 0,
    start_time_ms := Value.int 0, end_time_ms := Value.null, winner := Value.null }

/-- A player_stats row with a given id and match reference. -/
def sampleStats (i : Int) (mid : Option Int) : PlayerStatsRow :=
  { id := i, match_id := mid, side := Value.text "left", goals := Value.int 0,
    shots_attempted := Value.int 0, shots_made := Value.int 0,
    steals_attempted := Value.int 0, steals_successful := Value.int 0,
    possession_time := Value.real 0 0, distance_traveled := Value.real 0 0,
    jumps := Value.int 0, nav_paths_completed := Value.int 0,
    nav_paths_failed := Value.int 0, avg_shot_x := Value.real 0 0,
    avg_shot_y := Value.real 0 0, avg_shot_quality := Value.real 0 0 }

/-- An events row with a given id, match reference and point reference. -/
def sampleEvent (i : Int) (mid pid : Option Int) : EventRow :=
  { id := i, match_id := mid, point_id := pid, time_ms := Value.int 5,
    tick_frame := Value.int 0, event_type := Value.text "goal",
    data := Value.text "x", created_at := Value.null }

/-- A debug_events row with a given id and match reference. -/
def sampleDebug (i : Int) (mid : Option Int) : DebugEventRow :=
  { id := i, match_id := mid, time_ms := Value.int 0, tick_frame := Value.int 0,
    player := Value.text "left", pos_x := Value.real 0 0, pos_y := Value.real 0 0,
    vel_x := Value.real 0 0, vel_y := Value.real 0 0,
    input_move_x := Value.real 0 0, input_jump := Value.int 0,
    grounded := Value.int 1, is_jumping := Value.int 0,
    coyote_timer := Value.real 0 0, jump_buffer_timer := Value.real 0 0,
    facing := Value.real 1 0, nav_active := Value.int 0,
    nav_path_index := Value.int 0, nav_action := Value.null,
    level_id := Value.text "L", human_controlled := Value.int 0,
    created_at := Value.null }

/-- A small source store: one session, one match, one point, one event. -/
def srcA : Store :=
  { sessions := [sampleSession "s1"], matches' := [sampleMatch 1],
    points := [samplePoint 1 (some 1)], player_stats := [sampleStats 1 (some 1)],
    events := [sampleEvent 1 (some 1) (some 1)], debug_events := [sampleDebug 1 (some 1)] }

/-- A second source store sharing the session id of srcA, with an event
whose point_id is null. -/
def srcB : Store :=
  { sessions := [sampleSession "s1", sampleSession "s2"], matches' := [sampleMatch 5],
    points := [], player_stats := [],
    events := [sampleEvent 3 (some 5) none], debug_events := [] }

/-- A malformed source store whose dependent rows reference match id 99
and point id 98, neither of which exists in the store. -/
def srcDangling : Store :=
  { sessions := [], matches' := [sampleMatch 1],
    points := [samplePoint 4 (some 99)], player_stats := [sampleStats 4 (some 99)],
    events := [sampleEvent 4 (some 99) (some 98)], debug_events := [sampleDebug 4 (some 99)] }

/-- A file system holding exactly one source store at path a.db. -/
def fsA : String → Option Store :=
  fun p => if p = "a.db" then some srcA else none

theorem foldl_max_init_le (l : List Int) : ∀ a : Int, a ≤ l.foldl max a := by
  induction l with
  | nil => intro a; simp
  | cons b t ih =>
    intro a
    exact le_trans (le_max_left a b) (ih (max a b))

theorem foldl_max_le_of_mem (l : List Int) : ∀ a x : Int, x ∈ l → x ≤ l.foldl max a := by
  induction l with
  | nil => intro a x hx; simp at hx
  | cons b t ih =>
    intro a x hx
    rcases List.mem_cons.mp hx with h | h
    · subst h
      exact le_trans (le_max_right a x) (foldl_max_init_le t (max a x))
    · exact ih (max a b) x h

theorem foldl_max_choice (l : List Int) : ∀ a : Int, l.foldl max a = a ∨ l.foldl max a ∈ l := by
  induction l with
  | nil => intro a; left; rfl
  | cons b t ih =>
    intro a
    have hstep : (b :: t).foldl max a = t.foldl max (max a b) := rfl
    rcases ih (max a b) with h | h
    · rcases max_choice a b with hm | hm
      · left; rw [hstep, h, hm]
      · right; rw [hstep, h, hm]; exact List.mem_cons_self b t
    · right; rw [hstep]; exact List.mem_cons_of_mem b h

theorem le_max_id_of_mem {l : List Int} {x : Int} (hx : x ∈ l) : x ≤ max_id l := by
  cases l with
  | nil => simp at hx
  | cons b t =>
    rcases List.mem_cons.mp hx with h | h
    · subst h; exact foldl_max_init_le t x
    · exact foldl_max_le_of_mem t b x h

theorem max_id_mem {l : List Int} (h : l ≠ []) : max_id l ∈ l := by
  cases l with
  | nil => exact absurd rfl h
  | cons b t =>
    rcases foldl_max_choice t b with hc | hc
    · rw [max_id, hc]; exact List.mem_cons_self b t
    · exact List.mem_cons_of_mem b hc

theorem range'_snoc (k : Nat) : ∀ s : Nat, List.range' s (k + 1) = List.range' s k ++ [s + k] := by
  induction k with
  | zero => intro s; simp [List.range']
  | succ k ih =>
    intro s
    calc List.range' s (k + 2) = s :: List.range' (s + 1) (k + 1) := by simp [List.range']
    _ = s :: (List.range' (s + 1) k ++ [s + 1 + k]) := by rw [ih (s + 1)]
    _ = List.range' s (k + 1) ++ [s + (k + 1)] := by
        simp [List.range']
        omega

theorem newIds_length (off : Int) (k : Nat) : (newIds off k).length = k := by
  simp only [newIds]
  rw [List.length_map, List.length_range']

theorem newIds_snoc (off : Int) (k : Nat) :
    newIds off (k + 1) = newIds off k ++ [off + ((k + 1 : Nat) : Int)] := by
  simp only [newIds]
  rw [range'_snoc, Nat.add_comm 1 k, List.map_append]
  rfl

theorem idSeq_length (n : Nat) : (idSeq n).length = n := by
  simp only [idSeq]
  rw [List.length_map, List.length_range']

theorem idSeq_succ (n : Nat) : idSeq (n + 1) = idSeq n ++ [((n + 1 : Nat) : Int)] := by
  simp only [idSeq]
  rw [range'_snoc, Nat.add_comm 1 n, List.map_append]
  rfl

theorem max_id_snoc_of_ne {l : List Int} (x : Int) (h : l ≠ []) :
    max_id (l ++ [x]) = max (max_id l) x := by
  cases l with
  | nil => exact absurd rfl h
  | cons b t => simp [max_id, List.foldl_append]

theorem max_id_idSeq (n : Nat) : max_id (idSeq n) = (n : Int) := by
  induction n with
  | zero => rfl
  | succ n ih =>
    rw [idSeq_succ]
    cases n with
    | zero => rfl
    | succ m =>
      rw [max_id_snoc_of_ne _ (by simp [idSeq, List.range']), ih]
      rw [max_eq_right (Nat.cast_le.mpr (by omega))]

theorem mem_range'_one {n : Nat} : ∀ {s m : Nat}, m ∈ List.range' s n ↔ s ≤ m ∧ m < s + n := by
  induction n with
  | zero => intro s m; simp [List.range']
  | succ k ih =>
    intro s m
    simp only [List.range', List.mem_cons]
    rw [ih]
    omega

theorem nodup_range'_one (n : Nat) : ∀ s : Nat, (List.range' s n).Nodup := by
  induction n with
  | zero => intro s; simp [List.range']
  | succ k ih =>
    intro s
    simp only [List.range']
    rw [List.nodup_cons]
    refine ⟨fun hmem => ?_, ih (s + 1)⟩
    have := mem_range'_one.mp hmem
    omega

theorem idSeq_nodup (n : Nat) : (idSeq n).Nodup := by
  refine List.Nodup.map ?_ (nodup_range'_one n 1)
  intro a b h
  have h' : (a : Int) = (b : Int) := h
  exact_mod_cast h' 

theorem idSeq_append (n k : Nat) : idSeq (n + k) = idSeq n ++ newIds (n : Int) k := by
  induction k with
  | zero => simp [newIds]
  | succ k ih =>
    have h1 : n + (k + 1) = (n + k) + 1 := by omega
    have h2 : ((n + k + 1 : Nat) : Int) = (n : Int) + ((k + 1 : Nat) : Int) := by
      push_cast; ring
    rw [h1, idSeq_succ, ih, newIds_snoc, List.append_assoc, h2]

theorem copyMatchesAux_ids (offset : Int) (rows : List MatchRow) :
    ∀ (idx : Nat) (mm : Int → Option Int),
      (copyMatchesAux offset idx mm rows).2.map MatchRow.id
        = (List.range' idx rows.length).map (fun (n : Nat) => offset + (n : Int)) := by
  induction rows with
  | nil => intro idx mm; simp [copyMatchesAux, List.range']
  | cons r rs ih =>
    intro idx mm
    simp [copyMatchesAux, List.range', ih]

theorem copyPointsAux_ids (offset : Int) (mm : Int → Option Int) (rows : List PointRow) :
    ∀ (idx : Nat) (pm : Int → Option Int),
      (copyPointsAux offset mm idx pm rows).2.map PointRow.id
        = (List.range' idx rows.length).map (fun (n : Nat) => offset + (n : Int)) := by
  induction rows with
  | nil => intro idx pm; simp [copyPointsAux, List.range']
  | cons r rs ih =>
    intro idx pm
    simp [copyPointsAux, List.range', ih]

theorem copyPlayerStatsAux_ids (offset : Int) (mm : Int → Option Int)
    (rows : List PlayerStatsRow) :
    ∀ idx : Nat,
      (copyPlayerStatsAux offset mm idx rows).map PlayerStatsRow.id
        = (List.range' idx rows.length).map (fun (n : Nat) => offset + (n : Int)) := by
  induction rows with
  | nil => intro idx; simp [copyPlayerStatsAux, List.range']
  | cons r rs ih =>
    intro idx
    simp [copyPlayerStatsAux, List.range', ih]

theorem copyEventsAux_ids (offset : Int) (mm pm : Int → Option Int)
    (rows : List EventRow) :
    ∀ idx : Nat,
      (copyEventsAux offset mm pm idx rows).map EventRow.id
        = (List.range' idx rows.length).map (fun (n : Nat) => offset + (n : Int)) := by
  induction rows with
  | nil => intro idx; simp [copyEventsAux, List.range']
  | cons r rs ih =>
    intro idx
    simp [copyEventsAux, List.range', ih]

theorem copyDebugEventsAux_ids (offset : Int) (mm : Int → Option Int)
    (rows : List DebugEventRow) :
    ∀ idx : Nat,
      (copyDebugEventsAux offset mm idx rows).map DebugEventRow.id
        = (List.range' idx rows.length).map (fun (n : Nat) => offset + (n : Int)) := by
  induction rows with
  | nil => intro idx; simp [copyDebugEventsAux, List.range']
  | cons r rs ih =>
    intro idx
    simp [copyDebugEventsAux, List.range', ih]

theorem tableIds_merge (d s : Store) (t : Tbl) :
    tableIds (merge_db_tables d s) t
      = tableIds d t ++ newIds (max_id (tableIds d t)) (srcCount s t) := by
  cases t <;>
    simp [merge_db_tables, tableIds, srcCount, newIds, copyMatches, copyPoints,
      copyPlayerStats, copyEvents, copyDebugEvents, copyMatchesAux_ids,
      copyPointsAux_ids, copyPlayerStatsAux_ids, copyEventsAux_ids,
      copyDebugEventsAux_ids]

theorem copyMatchesAux_map_notMem (offset : Int) (rows : List MatchRow) :
    ∀ (idx : Nat) (mm : Int → Option Int) (k : Int),
      k ∉ rows.map MatchRow.id → (copyMatchesAux offset idx mm rows).1 k = mm k := by
  induction rows with
  | nil => intro idx mm k _; rfl
  | cons r rs ih =>
    intro idx mm k hk
    simp only [List.map_cons, List.mem_cons, not_or] at hk
    have hstep : (copyMatchesAux offset idx mm (r :: rs)).1
        = (copyMatchesAux offset (idx + 1)
            (fun x => if x = r.id then some (offset + (idx : Int)) else mm x) rs).1 := rfl
    rw [hstep, ih (idx + 1) _ k hk.2]
    simp [hk.1]

theorem copyMatchesAux_map_get (offset : Int) (rows : List MatchRow) :
    ∀ (idx : Nat) (mm : Int → Option Int) (i : Nat) (r : MatchRow),
      rows.get? i = some r → (rows.map MatchRow.id).Nodup →
      (copyMatchesAux offset idx mm rows).1 r.id
        = some (offset + ((idx + i : Nat) : Int)) := by
  induction rows with
  | nil => intro idx mm i r h _; simp at h
  | cons r0 rs ih =>
    intro idx mm i r h hnd
    rw [List.map_cons, List.nodup_cons] at hnd
    have hstep : (copyMatchesAux offset idx mm (r0 :: rs)).1
        = (copyMatchesAux offset (idx + 1)
            (fun x => if x = r0.id then some (offset + (idx : Int)) else mm x) rs).1 := rfl
    cases i with
    | zero =>
      have hr : r0 = r := by simpa using h
      subst hr
      rw [hstep, copyMatchesAux_map_notMem offset rs _ _ _ hnd.1]
      simp
    | succ i' =>
      have h' : rs.get? i' = some r := by simpa using h
      rw [hstep, ih (idx + 1) _ i' r h' hnd.2]
      have : ((idx + 1 + i' : Nat) : Int) = ((idx + (i' + 1) : Nat) : Int) := by
        push_cast; ring
      rw [this]

theorem copyPointsAux_map_notMem (offset : Int) (mm : Int → Option Int)
    (rows : List PointRow) :
    ∀ (idx : Nat) (pm : Int → Option Int) (k : Int),
      k ∉ rows.map PointRow.id → (copyPointsAux offset mm idx pm rows).1 k = pm k := by
  induction rows with
  | nil => intro idx pm k _; rfl
  | cons r rs ih =>
    intro idx pm k hk
    simp only [List.map_cons, List.mem_cons, not_or] at hk
    have hstep : (copyPointsAux offset mm idx pm (r :: rs)).1
        = (copyPointsAux offset mm (idx + 1)
            (fun x => if x = r.id then some (offset + (idx : Int)) else pm x) rs).1 := rfl
    rw [hstep, ih (idx + 1) _ k hk.2]
    simp [hk.1]

theorem copyPointsAux_map_get (offset : Int) (mm : Int → Option Int)
    (rows : List PointRow) :
    ∀ (idx : Nat) (pm : Int → Option Int) (j : Nat) (r : PointRow),
      rows.get? j = some r → (rows.map PointRow.id).Nodup →
      (copyPointsAux offset mm idx pm rows).1 r.id
        = some (offset + ((idx + j : Nat) : Int)) := by
  induction rows with
  | nil => intro idx pm j r h _; simp at h
  | cons r0 rs ih =>
    intro idx pm j r h hnd
    rw [List.map_cons, List.nodup_cons] at hnd
    have hstep : (copyPointsAux offset mm idx pm (r0 :: rs)).1
        = (copyPointsAux offset mm (idx + 1)
            (fun x => if x = r0.id then some (offset + (idx : Int)) else pm x) rs).1 := rfl
    cases j with
    | zero =>
      have hr : r0 = r := by simpa using h
      subst hr
      rw [hstep, copyPointsAux_map_notMem offset mm rs _ _ _ hnd.1]
      simp
    | succ j' =>
      have h' : rs.get? j' = some r := by simpa using h
      rw [hstep, ih (idx + 1) _ j' r h' hnd.2]
      have : ((idx + 1 + j' : Nat) : Int) = ((idx + (j' + 1) : Nat) : Int) := by
        push_cast; ring
      rw [this]

theorem copyPointsAux_get (offset : Int) (mm : Int → Option Int)
    (rows : List PointRow) :
    ∀ (idx : Nat) (pm : Int → Option Int) (k : Nat),
      (copyPointsAux offset mm idx pm rows).2.get? k
        = (rows.get? k).map (fun r =>
            { r with id := offset + (idx : Int) + (k : Int),
                     match_id := dictGet mm r.match_id }) := by
  induction rows with
  | nil => intro idx pm k; simp [copyPointsAux]
  | cons r rs ih =>
    intro idx pm k
    cases k with
    | zero => simp [copyPointsAux]
    | succ k' =>
      have hstep : (copyPointsAux offset mm idx pm (r :: rs)).2.get? (k' + 1)
          = (copyPointsAux offset mm (idx + 1)
              (fun x => if x = r.id then some (offset + (idx : Int)) else pm x) rs).2.get? k' := rfl
      rw [hstep, ih (idx + 1) _ k']
      have : offset + ((idx + 1 : Nat) : Int) + (k' : Int)
          = offset + (idx : Int) + ((k' + 1 : Nat) : Int) := by push_cast; ring
      simp only [this, List.get?]

theorem copyPlayerStatsAux_get (offset : Int) (mm : Int → Option Int)
    (rows : List PlayerStatsRow) :
    ∀ (idx k : Nat),
      (copyPlayerStatsAux offset mm idx rows).get? k
        = (rows.get? k).map (fun r =>
            { r with id := offset + (idx : Int) + (k : Int),
                     match_id := dictGet mm r.match_id }) := by
  induction rows with
  | nil => intro idx k; simp [copyPlayerStatsAux]
  | cons r rs ih =>
    intro idx k
    cases k with
    | zero => simp [copyPlayerStatsAux]
    | succ k' =>
      have hstep : (copyPlayerStatsAux offset mm idx (r :: rs)).get? (k' + 1)
          = (copyPlayerStatsAux offset mm (idx + 1) rs).get? k' := rfl
      rw [hstep, ih (idx + 1) k']
      have : offset + ((idx + 1 : Nat) : Int) + (k' : Int)
          = offset + (idx : Int) + ((k' + 1 : Nat) : Int) := by push_cast; ring
      simp only [this, List.get?]

theorem copyEventsAux_get (offset : Int) (mm pm : Int → Option Int)
    (rows : List EventRow) :
    ∀ (idx k : Nat),
      (copyEventsAux offset mm pm idx rows).get? k
        = (rows.get? k).map (fun r =>
            { r with id := offset + (idx : Int) + (k : Int),
                     match_id := dictGet mm r.match_id,
                     point_id := match r.point_id with
                       | none => none
                       | some pid => pm pid }) := by
  induction rows with
  | nil => intro idx k; simp [copyEventsAux]
  | cons r rs ih =>
    intro idx k
    cases k with
    | zero => simp [copyEventsAux]
    | succ k' =>
      have hstep : (copyEventsAux offset mm pm idx (r :: rs)).get? (k' + 1)
          = (copyEventsAux offset mm pm (idx + 1) rs).get? k' := rfl
      rw [hstep, ih (idx + 1) k']
      have : offset + ((idx + 1 : Nat) : Int) + (k' : Int)
          = offset + (idx : Int) + ((k' + 1 : Nat) : Int) := by push_cast; ring
      simp only [this, List.get?]

theorem copyDebugEventsAux_get (offset : Int) (mm : Int → Option Int)
    (rows : List DebugEventRow) :
    ∀ (idx k : Nat),
      (copyDebugEventsAux offset mm idx rows).get? k
        = (rows.get? k).map (fun r =>
            { r with id := offset + (idx : Int) + (k : Int),
                     match_id := dictGet mm r.match_id }) := by
  induction rows with
  | nil => intro idx k; simp [copyDebugEventsAux]
  | cons r rs ih =>
    intro idx k
    cases k with
    | zero => simp [copyDebugEventsAux]
    | succ k' =>
      have hstep : (copyDebugEventsAux offset mm idx (r :: rs)).get? (k' + 1)
          = (copyDebugEventsAux offset mm (idx + 1) rs).get? k' := rfl
      rw [hstep, ih (idx + 1) k']
      have : offset + ((idx + 1 : Nat) : Int) + (k' : Int)
          = offset + (idx : Int) + ((k' + 1 : Nat) : Int) := by push_cast; ring
      simp only [this, List.get?]

theorem insertOrIgnoreSession_noop (rows : List SessionRow) (r : SessionRow)
    (h : ∃ x ∈ rows, x.id = r.id) : insertOrIgnoreSession rows r = rows := by
  rw [insertOrIgnoreSession, if_pos]
  rw [List.any_eq_true]
  obtain ⟨x, hx, hid⟩ := h
  exact ⟨x, hx, by simp [hid]⟩

theorem insertOrIgnoreSession_append (rows : List SessionRow) (r : SessionRow)
    (h : ¬ ∃ x ∈ rows, x.id = r.id) : insertOrIgnoreSession rows r = rows ++ [r] := by
  rw [insertOrIgnoreSession, if_neg]
  rw [List.any_eq_true]
  intro ⟨x, hx, hid⟩
  exact h ⟨x, hx, by simpa using hid⟩

theorem copy_sessions_prefix (src : List SessionRow) :
    ∀ dest : List SessionRow, ∃ extra, copy_sessions dest src = dest ++ extra := by
  induction src with
  | nil => intro dest; exact ⟨[], by simp [copy_sessions]⟩
  | cons r rs ih =>
    intro dest
    have hstep : copy_sessions dest (r :: rs)
        = copy_sessions (insertOrIgnoreSession dest r) rs := rfl
    by_cases h : ∃ x ∈ dest, x.id = r.id
    · rw [hstep, insertOrIgnoreSession_noop dest r h]
      exact ih dest
    · rw [hstep, insertOrIgnoreSession_append dest r h]
      obtain ⟨extra, hx⟩ := ih (dest ++ [r])
      exact ⟨[r] ++ extra, by rw [hx, List.append_assoc]⟩

theorem copy_sessions_mem_dest {dest : List SessionRow} {x : SessionRow}
    (src : List SessionRow) (hx : x ∈ dest) : x ∈ copy_sessions dest src := by
  obtain ⟨extra, he⟩ := copy_sessions_prefix src dest
  rw [he]
  exact List.mem_append_left extra hx

theorem copy_sessions_mem_src (src : List SessionRow) :
    ∀ (dest : List SessionRow) (r : SessionRow), r ∈ src →
      r.id ∈ (copy_sessions dest src).map SessionRow.id := by
  induction src with
  | nil => intro dest r h; simp at h
  | cons r0 rs ih =>
    intro dest r h
    have hstep : copy_sessions dest (r0 :: rs)
        = copy_sessions (insertOrIgnoreSession dest r0) rs := rfl
    rcases List.mem_cons.mp h with h | h
    · subst h
      by_cases hd : ∃ x ∈ dest, x.id = r.id
      · obtain ⟨x, hx, hid⟩ := hd
        rw [hstep, insertOrIgnoreSession_noop dest r ⟨x, hx, hid⟩]
        exact List.mem_map.mpr ⟨x, copy_sessions_mem_dest rs hx, hid⟩
      · rw [hstep, insertOrIgnoreSession_append dest r hd]
        exact List.mem_map.mpr
          ⟨r, copy_sessions_mem_dest rs (by simp), rfl⟩
    · rw [hstep]
      exact ih (insertOrIgnoreSession dest r0) r h

theorem copy_sessions_nodup (src : List SessionRow) :
    ∀ dest : List SessionRow, (dest.map SessionRow.id).Nodup →
      ((copy_sessions dest src).map SessionRow.id).Nodup := by
  induction src with
  | nil => intro dest h; exact h
  | cons r0 rs ih =>
    intro dest h
    have hstep : copy_sessions dest (r0 :: rs)
        = copy_sessions (insertOrIgnoreSession dest r0) rs := rfl
    rw [hstep]
    by_cases hd : ∃ x ∈ dest, x.id = r0.id
    · rw [insertOrIgnoreSession_noop dest r0 hd]
      exact ih dest h
    · rw [insertOrIgnoreSession_append dest r0 hd]
      refine ih (dest ++ [r0]) ?_
      rw [List.map_append]
      simp only [List.map_cons, List.map_nil]
      rw [List.nodup_append]
      refine ⟨h, List.nodup_singleton r0.id, ?_⟩
      intro a ha hb
      simp only [List.mem_singleton] at hb
      subst hb
      obtain ⟨x, hx, hid⟩ := List.mem_map.mp ha
      exact hd ⟨x, hx, hid⟩

theorem copy_sessions_noop (src : List SessionRow) :
    ∀ dest : List SessionRow, (∀ r ∈ src, r.id ∈ dest.map SessionRow.id) →
      copy_sessions dest src = dest := by
  induction src with
  | nil => intro dest _; rfl
  | cons r0 rs ih =>
    intro dest h
    have h0 : r0.id ∈ dest.map SessionRow.id := h r0 (by simp)
    obtain ⟨x, hx, hid⟩ := List.mem_map.mp h0
    have hstep : copy_sessions dest (r0 :: rs)
        = copy_sessions (insertOrIgnoreSession dest r0) rs := rfl
    rw [hstep, insertOrIgnoreSession_noop dest r0 ⟨x, hx, hid⟩]
    exact ih dest (fun r hr => h r (by simp [hr]))

theorem merge_db_tables_sessions (d s : Store) :
    (merge_db_tables d s).sessions = copy_sessions d.sessions s.sessions := rfl

theorem mergeList_nil (d : Store) : mergeList d [] = d := rfl

theorem mergeList_cons (d s : Store) (rest : List Store) :
    mergeList d (s :: rest) = mergeList (merge_db_tables d s) rest := rfl

theorem mergeList_sessions_mem_dest (srcs : List Store) :
    ∀ (d : Store) (sid : String), sid ∈ d.sessions.map SessionRow.id →
      sid ∈ (mergeList d srcs).sessions.map SessionRow.id := by
  induction srcs with
  | nil => intro d sid h; exact h
  | cons s rest ih =>
    intro d sid h
    rw [mergeList_cons]
    refine ih (merge_db_tables d s) sid ?_
    rw [merge_db_tables_sessions]
    obtain ⟨x, hx, hid⟩ := List.mem_map.mp h
    exact List.mem_map.mpr ⟨x, copy_sessions_mem_dest s.sessions hx, hid⟩

theorem mergeList_sessions_mem (srcs : List Store) :
    ∀ (d s : Store) (r : SessionRow), s ∈ srcs → r ∈ s.sessions →
      r.id ∈ (mergeList d srcs).sessions.map SessionRow.id := by
  induction srcs with
  | nil => intro d s r h _; simp at h
  | cons s0 rest ih =>
    intro d s r hs hr
    rcases List.mem_cons.mp hs with h | h
    · subst h
      rw [mergeList_cons]
      refine mergeList_sessions_mem_dest rest (merge_db_tables d s) r.id ?_
      rw [merge_db_tables_sessions]
      exact copy_sessions_mem_src s.sessions d.sessions r hr
    · rw [mergeList_cons]
      exact ih (merge_db_tables d s0) s r h hr

theorem mergeList_sessions_noop (srcs : List Store) :
    ∀ d : Store,
      (∀ s ∈ srcs, ∀ r ∈ s.sessions, r.id ∈ d.sessions.map SessionRow.id) →
      (mergeList d srcs).sessions = d.sessions := by
  induction srcs with
  | nil => intro d _; rfl
  | cons s0 rest ih =>
    intro d h
    have h0 : copy_sessions d.sessions s0.sessions = d.sessions :=
      copy_sessions_noop s0.sessions d.sessions (h s0 (by simp))
    have hs : (merge_db_tables d s0).sessions = d.sessions := by
      rw [merge_db_tables_sessions, h0]
    rw [mergeList_cons]
    rw [ih (merge_db_tables d s0) (fun s hsr r hr => by
      rw [hs]; exact h s (by simp [hsr]) r hr)]
    exact hs

theorem tableIds_length_merge (d s : Store) (t : Tbl) :
    (tableIds (merge_db_tables d s) t).length = (tableIds d t).length + srcCount s t := by
  rw [tableIds_merge, List.length_append, newIds_length]

theorem mergeList_tableIds_length (srcs : List Store) :
    ∀ (d : Store) (t : Tbl),
      (tableIds (mergeList d srcs) t).length
        = (tableIds d t).length + (srcs.map (fun s => srcCount s t)).sum := by
  induction srcs with
  | nil => intro d t; simp [mergeList_nil]
  | cons s rest ih =>
    intro d t
    rw [mergeList_cons, ih (merge_db_tables d s) t, tableIds_length_merge]
    simp [List.sum_cons]
    omega

theorem mergeList_tableIds (srcs : List Store) :
    ∀ (d : Store) (t : Tbl) (n : Nat), tableIds d t = idSeq n →
      tableIds (mergeList d srcs) t
        = idSeq (n + (srcs.map (fun s => srcCount s t)).sum) := by
  induction srcs with
  | nil => intro d t n h; simpa [mergeList_nil] using h
  | cons s rest ih =>
    intro d t n h
    have hstep : tableIds (merge_db_tables d s) t = idSeq (n + srcCount s t) := by
      rw [tableIds_merge, h, max_id_idSeq, ← idSeq_append]
    rw [mergeList_cons, ih (merge_db_tables d s) t (n + srcCount s t) hstep]
    congr 1
    simp [List.sum_cons]
    omega

theorem runMerge_nil (d : Store) : runMerge d [] = (d, []) := rfl

theorem runMerge_foldl (srcs : List SrcFile) :
    ∀ (d : Store) (ls : List String),
      srcs.foldl (fun acc s =>
        let step := merge_db acc.1 s
        (step.1, acc.2 ++ step.2)) (d, ls)
      = ((runMerge d srcs).1, ls ++ (runMerge d srcs).2) := by
  induction srcs with
  | nil => intro d ls; simp [runMerge]
  | cons s rest ih =>
    intro d ls
    have h2 : runMerge d (s :: rest)
        = ((runMerge (merge_db d s).1 rest).1,
            ([] ++ (merge_db d s).2) ++ (runMerge (merge_db d s).1 rest).2) := by
      rw [runMerge]
      simp only [List.foldl]
      exact ih ((merge_db d s).1) ([] ++ (merge_db d s).2)
    simp only [List.foldl]
    rw [ih ((merge_db d s).1) (ls ++ (merge_db d s).2), h2]
    simp [List.append_assoc]

theorem runMerge_cons (d : Store) (s : SrcFile) (rest : List SrcFile) :
    runMerge d (s :: rest)
      = ((runMerge (merge_db d s).1 rest).1,
          (merge_db d s).2 ++ (runMerge (merge_db d s).1 rest).2) := by
  rw [runMerge]
  simp only [List.foldl]
  rw [runMerge_foldl]
  simp

theorem runMerge_append (xs : List SrcFile) :
    ∀ (d : Store) (ys : List SrcFile),
      runMerge d (xs ++ ys)
        = ((runMerge (runMerge d xs).1 ys).1,
            (runMerge d xs).2 ++ (runMerge (runMerge d xs).1 ys).2) := by
  induction xs with
  | nil => intro d ys; simp [runMerge_nil]
  | cons x xs ih =>
    intro d ys
    simp only [List.cons_append]
    rw [runMerge_cons, ih, runMerge_cons]
    simp [List.append_assoc]

theorem runOps_append (d : Store) (ops1 ops2 : List (Store → Store)) :
    runOps d (ops1 ++ ops2) = runOps (runOps d ops1) ops2 := by
  simp [runOps, List.foldl_append]

theorem runOps_sessionOps (rows : List SessionRow) :
    ∀ d : Store,
      runOps d (sessionOps rows) = { d with sessions := copy_sessions d.sessions rows } := by
  induction rows with
  | nil => intro d; rfl
  | cons r rs ih =>
    intro d
    have hstep : runOps d (sessionOps (r :: rs))
        = runOps { d with sessions := insertOrIgnoreSession d.sessions r } (sessionOps rs) := rfl
    rw [hstep, ih]
    rfl

theorem runOps_matchInsertOps (rows : List MatchRow) :
    ∀ d : Store,
      runOps d (matchInsertOps rows) = { d with matches' := d.matches' ++ rows } := by
  induction rows with
  | nil => intro d; simp [runOps, matchInsertOps]
  | cons r rs ih =>
    intro d
    have hstep : runOps d (matchInsertOps (r :: rs))
        = runOps { d with matches' := d.matches' ++ [r] } (matchInsertOps rs) := rfl
    rw [hstep, ih]
    simp

theorem runOps_pointInsertOps (rows : List PointRow) :
    ∀ d : Store,
      runOps d (pointInsertOps rows) = { d with points := d.points ++ rows } := by
  induction rows with
  | nil => intro d; simp [runOps, pointInsertOps]
  | cons r rs ih =>
    intro d
    have hstep : runOps d (pointInsertOps (r :: rs))
        = runOps { d with points := d.points ++ [r] } (pointInsertOps rs) := rfl
    rw [hstep, ih]
    simp

theorem runOps_playerStatsInsertOps (rows : List PlayerStatsRow) :
    ∀ d : Store,
      runOps d (playerStatsInsertOps rows)
        = { d with player_stats := d.player_stats ++ rows } := by
  induction rows with
  | nil => intro d; simp [runOps, playerStatsInsertOps]
  | cons r rs ih =>
    intro d
    have hstep : runOps d (playerStatsInsertOps (r :: rs))
        = runOps { d with player_stats := d.player_stats ++ [r] } (playerStatsInsertOps rs) := rfl
    rw [hstep, ih]
    simp

theorem runOps_eventInsertOps (rows : List EventRow) :
    ∀ d : Store,
      runOps d (eventInsertOps rows) = { d with events := d.events ++ rows } := by
  induction rows with
  | nil => intro d; simp [runOps, eventInsertOps]
  | cons r rs ih =>
    intro d
    have hstep : runOps d (eventInsertOps (r :: rs))
        = runOps { d with events := d.events ++ [r] } (eventInsertOps rs) := rfl
    rw [hstep, ih]
    simp

theorem runOps_debugInsertOps (rows : List DebugEventRow) :
    ∀ d : Store,
      runOps d (debugInsertOps rows) = { d with debug_events := d.debug_events ++ rows } := by
  induction rows with
  | nil => intro d; simp [runOps, debugInsertOps]
  | cons r rs ih =>
    intro d
    have hstep : runOps d (debugInsertOps (r :: rs))
        = runOps { d with debug_events := d.debug_events ++ [r] } (debugInsertOps rs) := rfl
    rw [hstep, ih]
    simp

theorem runOps_passOps (d s : Store) : runOps d (passOps d s) = merge_db_tables d s := by
  simp only [passOps, merge_db_tables]
  rw [runOps_append, runOps_append, runOps_append, runOps_append, runOps_append]
  rw [runOps_sessionOps, runOps_matchInsertOps, runOps_pointInsertOps,
    runOps_playerStatsInsertOps, runOps_eventInsertOps, runOps_debugInsertOps]

theorem copyMatchesAux_length (offset : Int) (rows : List MatchRow) :
    ∀ (idx : Nat) (mm : Int → Option Int),
      (copyMatchesAux offset idx mm rows).2.length = rows.length := by
  induction rows with
  | nil => intro idx mm; rfl
  | cons r rs ih => intro idx mm; simp [copyMatchesAux, ih]

theorem copyPointsAux_length (offset : Int) (mm : Int → Option Int)
    (rows : List PointRow) :
    ∀ (idx : Nat) (pm : Int → Option Int),
      (copyPointsAux offset mm idx pm rows).2.length = rows.length := by
  induction rows with
  | nil => intro idx pm; rfl
  | cons r rs ih => intro idx pm; simp [copyPointsAux, ih]

theorem copyPlayerStatsAux_length (offset : Int) (mm : Int → Option Int)
    (rows : List PlayerStatsRow) :
    ∀ idx : Nat, (copyPlayerStatsAux offset mm idx rows).length = rows.length := by
  induction rows with
  | nil => intro idx; rfl
  | cons r rs ih => intro idx; simp [copyPlayerStatsAux, ih]

theorem copyEventsAux_length (offset : Int) (mm pm : Int → Option Int)
    (rows : List EventRow) :
    ∀ idx : Nat, (copyEventsAux offset mm pm idx rows).length = rows.length := by
  induction rows with
  | nil => intro idx; rfl
  | cons r rs ih => intro idx; simp [copyEventsAux, ih]

theorem copyDebugEventsAux_length (offset : Int) (mm : Int → Option Int)
    (rows : List DebugEventRow) :
    ∀ idx : Nat, (copyDebugEventsAux offset mm idx rows).length = rows.length := by
  induction rows with
  | nil => intro idx; rfl
  | cons r rs ih => intro idx; simp [copyDebugEventsAux, ih]

theorem passOps_length (d s : Store) : (passOps d s).length = totalRows s := by
  simp [passOps, totalRows, sessionOps, matchInsertOps, pointInsertOps,
    playerStatsInsertOps, eventInsertOps, debugInsertOps, copyMatches, copyPoints,
    copyPlayerStats, copyEvents, copyDebugEvents, copyMatchesAux_length,
    copyPointsAux_length, copyPlayerStatsAux_length, copyEventsAux_length,
    copyDebugEventsAux_length]
  omega

/-- C1: after merging N non-empty source stores into an empty destination,
no two copied rows of any integer-keyed table share a primary key, and the
maximum id in each table equals the sum of the row counts the sources
contributed to that table. -/
theorem merge_uniqueness (srcs : List Store)
    (hne : ∀ s ∈ srcs, s ≠ emptyStore) (t : Tbl) :
    (tableIds (mergeList emptyStore srcs) t).Nodup ∧
      max_id (tableIds (mergeList emptyStore srcs) t)
        = ((srcs.map (fun s => srcCount s t)).sum : Int) := by
  have h0 : tableIds emptyStore t = idSeq 0 := by cases t <;> rfl
  have h := mergeList_tableIds srcs emptyStore t 0 h0
  rw [Nat.zero_add] at h
  rw [h]
  exact ⟨idSeq_nodup _, max_id_idSeq _⟩

/-- Witness for C1: two concrete non-empty sources merged into the empty
destination, checked on the events table. -/
theorem merge_uniqueness_witness :
    (∀ s ∈ [srcA, srcB], s ≠ emptyStore) ∧
      ((tableIds (mergeList emptyStore [srcA, srcB]) Tbl.events).Nodup ∧
        max_id (tableIds (mergeList emptyStore [srcA, srcB]) Tbl.events)
          = (([srcA, srcB].map (fun s => srcCount s Tbl.events)).sum : Int)) :=
  ⟨by decide, merge_uniqueness [srcA, srcB] (by decide) Tbl.events⟩

/-- C4: for every destination table and every source pass, the offset used
for that table is the current maximum primary key in the destination table
(0 when it is empty, an upper bound and a member otherwise), recomputed
from the destination the pass actually starts from, and the K rows read
from the source are appended with ids offset+1 through offset+K in read
order. -/
theorem offset_allocation (dest src : Store) (t : Tbl) :
    (tableIds dest t = [] → max_id (tableIds dest t) = 0) ∧
      (∀ x ∈ tableIds dest t, x ≤ max_id (tableIds dest t)) ∧
      (tableIds dest t ≠ [] → max_id (tableIds dest t) ∈ tableIds dest t) ∧
      tableIds (merge_db_tables dest src) t
        = tableIds dest t ++ newIds (max_id (tableIds dest t)) (srcCount src t) := by
  refine ⟨?_, ?_, ?_, tableIds_merge dest src t⟩
  · intro h; rw [h]; rfl
  · intro x hx; exact le_max_id_of_mem hx
  · intro h; exact max_id_mem h

/-- Witness for C4: the second pass of a concrete two-source merge reads
its matches offset from the destination produced by the first pass. -/
theorem offset_allocation_witness :
    (tableIds (merge_db_tables emptyStore srcA) Tbl.matches' ≠ [] ∧
        max_id (tableIds (merge_db_tables emptyStore srcA) Tbl.matches')
          ∈ tableIds (merge_db_tables emptyStore srcA) Tbl.matches') ∧
      tableIds (merge_db_tables (merge_db_tables emptyStore srcA) srcB) Tbl.matches'
        = tableIds (merge_db_tables emptyStore srcA) Tbl.matches'
            ++ newIds
                (max_id (tableIds (merge_db_tables emptyStore srcA) Tbl.matches'))
                (srcCount srcB Tbl.matches') :=
  ⟨⟨by decide,
      (offset_allocation (merge_db_tables emptyStore srcA) srcB Tbl.matches').2.2.1
        (by decide)⟩,
    (offset_allocation (merge_db_tables emptyStore srcA) srcB Tbl.matches').2.2.2⟩

/-- C5: merging two source stores that share a Session id produces exactly
one sessions row with that id; session insertion is insert-if-absent keyed
on the Session id, and re-inserting an existing id is a no-op. -/
theorem session_idempotence (s1 s2 : Store) (sid : String)
    (h1 : sid ∈ s1.sessions.map SessionRow.id)
    (h2 : sid ∈ s2.sessions.map SessionRow.id) :
    ((mergeList emptyStore [s1, s2]).sessions.map SessionRow.id).count sid = 1 ∧
      ∀ (rows : List SessionRow) (r : SessionRow),
        (∃ x ∈ rows, x.id = r.id) → insertOrIgnoreSession rows r = rows := by
  constructor
  · have hform : (mergeList emptyStore [s1, s2]).sessions
        = copy_sessions (copy_sessions emptyStore.sessions s1.sessions) s2.sessions := rfl
    have hnd : ((mergeList emptyStore [s1, s2]).sessions.map SessionRow.id).Nodup := by
      rw [hform]
      exact copy_sessions_nodup _ _ (copy_sessions_nodup _ _ (by simp [emptyStore]))
    have hmem : sid ∈ (mergeList emptyStore [s1, s2]).sessions.map SessionRow.id := by
      obtain ⟨x, hx, hid⟩ := List.mem_map.mp h1
      have := mergeList_sessions_mem [s1, s2] emptyStore s1 x (by simp) hx
      rwa [hid] at this
    exact List.count_eq_one_of_mem hnd hmem
  · intro rows r h
    exact insertOrIgnoreSession_noop rows r h

/-- Witness for C5: srcA and srcB share the Session id s1. -/
theorem session_idempotence_witness :
    ("s1" ∈ srcA.sessions.map SessionRow.id ∧
        "s1" ∈ srcB.sessions.map SessionRow.id) ∧
      (((mergeList emptyStore [srcA, srcB]).sessions.map SessionRow.id).count "s1" = 1 ∧
        ∀ (rows : List SessionRow) (r : SessionRow),
          (∃ x ∈ rows, x.id = r.id) → insertOrIgnoreSession rows r = rows) :=
  ⟨⟨by decide, by decide⟩,
    session_idempotence srcA srcB "s1" (by decide) (by decide)⟩

/-- C6: a manifest source whose file does not exist is skipped with a
logged notice and the destination is left unchanged, and the run continues
with the remaining sources exactly as if the missing entry were absent. -/
theorem skip_missing (d : Store) (p : String) (pre post : List SrcFile) :
    merge_db d { path := p, contents := none }
        = (d, ["Skipping missing DB: " ++ p]) ∧
      (runMerge d (pre ++ { path := p, contents := none } :: post)).1
        = (runMerge d (pre ++ post)).1 ∧
      ("Skipping missing DB: " ++ p)
        ∈ (runMerge d (pre ++ { path := p, contents := none } :: post)).2 := by
  refine ⟨rfl, ?_, ?_⟩
  · rw [runMerge_append, runMerge_append, runMerge_cons]
    simp [merge_db]
  · rw [runMerge_append, runMerge_cons]
    simp [merge_db]

/-- C9: the manifest loader fails exactly when the list file is missing;
otherwise it returns one path per surviving line, in file order: a line
that is blank after stripping, or whose first non-whitespace character is
the comment mark, is skipped, and on any other line the text before the
first comment mark, stripped of surrounding whitespace, is the path. -/
theorem manifest_loader (listPath : String) (file : Option (List String)) :
    ((∃ e, read_db_list listPath file = Except.error e) ↔ file = none) ∧
      (∀ lines, file = some lines →
        read_db_list listPath file = Except.ok (lines.filterMap parseLine)) ∧
      (∀ l, pyStrip l = "" → parseLine l = none) ∧
      (∀ l, startsWithHash (pyStrip l) = true → parseLine l = none) ∧
      (∀ l, pyStrip l ≠ "" → startsWithHash (pyStrip l) = false →
        parseLine l = some (pyStrip (beforeHash (pyStrip l)))) := by
  refine ⟨⟨?_, ?_⟩, ?_, ?_, ?_, ?_⟩
  · intro ⟨e, he⟩
    cases file with
    | none => rfl
    | some lines => simp [read_db_list] at he
  · intro h; subst h; exact ⟨_, rfl⟩
  · intro lines h; subst h; rfl
  · intro l h; simp [parseLine, h]
  · intro l h
    by_cases h0 : pyStrip l = ""
    · simp [parseLine, h0]
    · simp [parseLine, h0, h]
  · intro l h1 h2; simp [parseLine, h1, h2]

/-- Witness for C9: concrete manifest lines of all three kinds, and a
concrete file driven through the loader. -/
theorem manifest_loader_witness :
    (pyStrip "   " = "" ∧ parseLine "   " = none) ∧
      (startsWithHash (pyStrip "  # c") = true ∧ parseLine "  # c" = none) ∧
      (pyStrip " a.db # x" ≠ "" ∧ startsWithHash (pyStrip " a.db # x") = false ∧
        parseLine " a.db # x" = some (pyStrip (beforeHash (pyStrip " a.db # x")))) ∧
      read_db_list "L" (some ["# c", "a.db", "", " b.db # x"])
        = Except.ok (["# c", "a.db", "", " b.db # x"].filterMap parseLine) :=
  ⟨⟨by decide, (manifest_loader "L" none).2.2.1 "   " (by decide)⟩,
    ⟨by decide, (manifest_loader "L" none).2.2.2.1 "  # c" (by decide)⟩,
    ⟨by decide, by decide,
      (manifest_loader "L" none).2.2.2.2 " a.db # x" (by decide) (by decide)⟩,
    (manifest_loader "L" (some ["# c", "a.db", "", " b.db # x"])).2.1 _ rfl⟩

/-- C10: when the manifest yields at least one entry, main deletes any file
already present at the output path before merging, so the pipeline's
outcome does not depend on what previously existed there. -/
theorem output_reset (listPath outPath : String) (lines : List String)
    (fs : String → Option Store) (existing existing' : Option Store)
    (h : lines.filterMap parseLine ≠ []) :
    main_run listPath outPath (some lines) fs existing
      = main_run listPath outPath (some lines) fs existing' := by
  have hne : (lines.filterMap parseLine).isEmpty = false := by
    cases hc : lines.filterMap parseLine with
    | nil => exact absurd hc h
    | cons a l => rfl
  simp only [main_run, read_db_list, hne]
  cases existing <;> cases existing' <;> simp

/-- Witness for C10: a one-entry manifest gives the same pipeline result
whether or not a stale store sat at the output path. -/
theorem output_reset_witness :
    (["a.db"].filterMap parseLine ≠ []) ∧
      main_run "L" "o.db" (some ["a.db"]) fsA (some srcB)
        = main_run "L" "o.db" (some ["a.db"]) fsA none :=
  ⟨by decide, output_reset "L" "o.db" ["a.db"] fsA (some srcB) none (by decide)⟩

/-- C3 counterexample: running the full pipeline twice against the same
destination path does not duplicate rows, because main deletes the
existing output file first: after a second run over the same one-match
manifest the matches table still holds one row, not two. -/
theorem pipeline_rerun_counterexample :
    (main_run "L" "o.db" (some ["a.db"]) fsA none).toOption.map MainResult.outFile
        = some (some (merge_db_tables emptyStore srcA)) ∧
      (main_run "L" "o.db" (some ["a.db"]) fsA
          (some (merge_db_tables emptyStore srcA))).toOption.map
            (fun r => r.outFile.map (fun d => d.matches'.length))
        = some (some 1) ∧
      ¬ (main_run "L" "o.db" (some ["a.db"]) fsA
          (some (merge_db_tables emptyStore srcA))).toOption.map
            (fun r => r.outFile.map (fun d => d.matches'.length))
        = some (some 2) := by
  exact ⟨by decide, by decide, by decide⟩

/-- C3 amended: the full pipeline deletes the output file before merging,
so a second full run reproduces rather than duplicates the first run's
contents; duplication occurs only when the merge loop itself runs a second
time over the same destination without that reset, and then every
integer-keyed table doubles its row count while the sessions table is
unchanged (only Session identity survives the re-merge). -/
theorem merge_loop_rerun_duplicates (srcs : List Store) :
    (mergeList (mergeList emptyStore srcs) srcs).sessions
        = (mergeList emptyStore srcs).sessions ∧
      ∀ t : Tbl,
        (tableIds (mergeList (mergeList emptyStore srcs) srcs) t).length
          = 2 * (tableIds (mergeList emptyStore srcs) t).length := by
  constructor
  · apply mergeList_sessions_noop
    intro s hs r hr
    exact mergeList_sessions_mem srcs emptyStore s r hs hr
  · intro t
    have h1 := mergeList_tableIds_length srcs emptyStore t
    have h2 := mergeList_tableIds_length srcs (mergeList emptyStore srcs) t
    have h0 : (tableIds emptyStore t).length = 0 := by cases t <;> rfl
    omega

theorem get?_append_skip {α : Type} (l1 : List α) :
    ∀ (l2 : List α) (k : Nat), (l1 ++ l2).get? (l1.length + k) = l2.get? k := by
  induction l1 with
  | nil => intro l2 k; simp
  | cons a t ih =>
    intro l2 k
    simp only [List.cons_append, List.length_cons]
    rw [show t.length + 1 + k = (t.length + k) + 1 by omega]
    simp only [List.get?]
    exact ih l2 k

/-- C2: every events row produced by a merge pass has match_id equal to
the new id assigned during the same pass to the source match it
referenced, and point_id null exactly when the source event's point_id was
null, otherwise equal to the new id assigned during the same pass to the
referenced source point. -/
theorem event_reference_rewrite (dest src : Store) (k i : Nat)
    (e : EventRow) (mrow : MatchRow)
    (he : src.events.get? k = some e)
    (hmnd : (src.matches'.map MatchRow.id).Nodup)
    (hpnd : (src.points.map PointRow.id).Nodup)
    (hm : src.matches'.get? i = some mrow)
    (hmid : e.match_id = some mrow.id)
    (hres : ∀ pid, e.point_id = some pid →
      ∃ j prow, src.points.get? j = some prow ∧ prow.id = pid) :
    ∃ o : EventRow,
      (merge_db_tables dest src).events.get? (dest.events.length + k) = some o ∧
        o.match_id
          = some (max_id (dest.matches'.map MatchRow.id) + ((1 + i : Nat) : Int)) ∧
        (o.point_id = none ↔ e.point_id = none) ∧
        (∀ j prow, src.points.get? j = some prow → e.point_id = some prow.id →
          o.point_id
            = some (max_id (dest.points.map PointRow.id) + ((1 + j : Nat) : Int))) := by
  have hev : (merge_db_tables dest src).events
      = dest.events
        ++ copyEvents (max_id (dest.events.map EventRow.id))
            (copyMatches (max_id (dest.matches'.map MatchRow.id)) src.matches').1
            (copyPoints (max_id (dest.points.map PointRow.id))
              (copyMatches (max_id (dest.matches'.map MatchRow.id)) src.matches').1
              src.points).1
            src.events := rfl
  rw [hev, get?_append_skip]
  simp only [copyEvents, copyMatches, copyPoints]
  rw [copyEventsAux_get, he]
  simp only [Option.map_some']
  refine ⟨_, rfl, ?_, ?_, ?_⟩
  · show dictGet (copyMatchesAux (max_id (dest.matches'.map MatchRow.id)) 1
        (fun _ => none) src.matches').1 e.match_id
      = some (max_id (dest.matches'.map MatchRow.id) + ((1 + i : Nat) : Int))
    rw [hmid]
    show (copyMatchesAux (max_id (dest.matches'.map MatchRow.id)) 1
        (fun _ => none) src.matches').1 mrow.id = _
    exact copyMatchesAux_map_get _ _ 1 (fun _ => none) i mrow hm hmnd
  · cases hp : e.point_id with
    | none => simp [hp]
    | some pid =>
      simp only [hp]
      constructor
      · intro hno
        obtain ⟨j, prow, hj, hpid⟩ := hres pid hp
        have hv := copyPointsAux_map_get
          (max_id (dest.points.map PointRow.id))
          (copyMatchesAux (max_id (dest.matches'.map MatchRow.id)) 1
            (fun _ => none) src.matches').1
          src.points 1 (fun _ => none) j prow hj hpnd
        rw [hpid] at hv
        rw [hv] at hno
        exact absurd hno (by simp)
      · intro h0
        exact absurd h0 (by simp)
  · intro j prow hj hpe
    simp only [hpe]
    exact copyPointsAux_map_get _ _ src.points 1 (fun _ => none) j prow hj hpnd

/-- Witness for C2: the single event of srcA references its match and its
point, merged on top of a destination already holding srcB's rows. -/
theorem event_reference_rewrite_witness :
    (srcA.events.get? 0 = some (sampleEvent 1 (some 1) (some 1)) ∧
        srcA.matches'.get? 0 = some (sampleMatch 1) ∧
        (sampleEvent 1 (some 1) (some 1)).match_id = some (sampleMatch 1).id) ∧
      ∃ o : EventRow,
        (merge_db_tables (merge_db_tables emptyStore srcB) srcA).events.get?
            ((merge_db_tables emptyStore srcB).events.length + 0) = some o ∧
          o.match_id
            = some (max_id ((merge_db_tables emptyStore srcB).matches'.map MatchRow.id)
                + ((1 + 0 : Nat) : Int)) ∧
          (o.point_id = none ↔ (sampleEvent 1 (some 1) (some 1)).point_id = none) ∧
          (∀ j prow, srcA.points.get? j = some prow →
            (sampleEvent 1 (some 1) (some 1)).point_id = some prow.id →
            o.point_id
              = some (max_id ((merge_db_tables emptyStore srcB).points.map PointRow.id)
                  + ((1 + j : Nat) : Int))) :=
  ⟨⟨by decide, by decide, by decide⟩,
    event_reference_rewrite (merge_db_tables emptyStore srcB) srcA 0 0
      (sampleEvent 1 (some 1) (some 1)) (sampleMatch 1)
      (by decide) (by decide) (by decide) (by decide) (by decide)
      (fun pid hpid => ⟨0, samplePoint 1 (some 1), by decide, by
        have : (1 : Int) = pid := by
          have h' : some (1 : Int) = some pid := hpid
          exact Option.some.inj h'
        simpa [samplePoint] using this⟩)⟩

/-- C8: a source row of points, player_stats, events or debug_events whose
foreign-key value is not a key of the current pass's id map is still
copied at its position with its other columns intact, and that foreign key
is written as null rather than the copy failing. -/
theorem dangling_fk_nulled (dest src : Store) :
    (∀ (k : Nat) (r : PointRow) (x : Int),
        src.points.get? k = some r → r.match_id = some x →
        x ∉ src.matches'.map MatchRow.id →
        ∃ o : PointRow,
          (merge_db_tables dest src).points.get? (dest.points.length + k) = some o ∧
            o.match_id = none ∧
            o = { r with id := o.id, match_id := o.match_id }) ∧
      (∀ (k : Nat) (r : PlayerStatsRow) (x : Int),
        src.player_stats.get? k = some r → r.match_id = some x →
        x ∉ src.matches'.map MatchRow.id →
        ∃ o : PlayerStatsRow,
          (merge_db_tables dest src).player_stats.get? (dest.player_stats.length + k)
              = some o ∧
            o.match_id = none ∧
            o = { r with id := o.id, match_id := o.match_id }) ∧
      (∀ (k : Nat) (r : EventRow) (x : Int),
        src.events.get? k = some r → r.match_id = some x →
        x ∉ src.matches'.map MatchRow.id →
        ∃ o : EventRow,
          (merge_db_tables dest src).events.get? (dest.events.length + k) = some o ∧
            o.match_id = none ∧
            o = { r with id := o.id, match_id := o.match_id, point_id := o.point_id }) ∧
      (∀ (k : Nat) (r : EventRow) (x : Int),
        src.events.get? k = some r → r.point_id = some x →
        x ∉ src.points.map PointRow.id →
        ∃ o : EventRow,
          (merge_db_tables dest src).events.get? (dest.events.length + k) = some o ∧
            o.point_id = none ∧
            o = { r with id := o.id, match_id := o.match_id, point_id := o.point_id }) ∧
      (∀ (k : Nat) (r : DebugEventRow) (x : Int),
        src.debug_events.get? k = some r → r.match_id = some x →
        x ∉ src.matches'.map MatchRow.id →
        ∃ o : DebugEventRow,
          (merge_db_tables dest src).debug_events.get? (dest.debug_events.length + k)
              = some o ∧
            o.match_id = none ∧
            o = { r with id := o.id, match_id := o.match_id }) := by
  refine ⟨?_, ?_, ?_, ?_, ?_⟩
  · intro k r x hr hx hnm
    have hpt : (merge_db_tables dest src).points
        = dest.points
          ++ (copyPoints (max_id (dest.points.map PointRow.id))
              (copyMatches (max_id (dest.matches'.map MatchRow.id)) src.matches').1
              src.points).2 := rfl
    rw [hpt, get?_append_skip]
    simp only [copyPoints, copyMatches]
    rw [copyPointsAux_get, hr]
    simp only [Option.map_some']
    refine ⟨_, rfl, ?_, rfl⟩
    show dictGet (copyMatchesAux (max_id (dest.matches'.map MatchRow.id)) 1
        (fun _ => none) src.matches').1 r.match_id = none
    rw [hx]
    exact copyMatchesAux_map_notMem _ _ 1 (fun _ => none) x hnm
  · intro k r x hr hx hnm
    have hst : (merge_db_tables dest src).player_stats
        = dest.player_stats
          ++ copyPlayerStats (max_id (dest.player_stats.map PlayerStatsRow.id))
              (copyMatches (max_id (dest.matches'.map MatchRow.id)) src.matches').1
              src.player_stats := rfl
    rw [hst, get?_append_skip]
    simp only [copyPlayerStats, copyMatches]
    rw [copyPlayerStatsAux_get, hr]
    simp only [Option.map_some']
    refine ⟨_, rfl, ?_, rfl⟩
    show dictGet (copyMatchesAux (max_id (dest.matches'.map MatchRow.id)) 1
        (fun _ => none) src.matches').1 r.match_id = none
    rw [hx]
    exact copyMatchesAux_map_notMem _ _ 1 (fun _ => none) x hnm
  · intro k r x hr hx hnm
    have hev : (merge_db_tables dest src).events
        = dest.events
          ++ copyEvents (max_id (dest.events.map EventRow.id))
              (copyMatches (max_id (dest.matches'.map MatchRow.id)) src.matches').1
              (copyPoints (max_id (dest.points.map PointRow.id))
                (copyMatches (max_id (dest.matches'.map MatchRow.id)) src.matches').1
                src.points).1
              src.events := rfl
    rw [hev, get?_append_skip]
    simp only [copyEvents, copyMatches, copyPoints]
    rw [copyEventsAux_get, hr]
    simp only [Option.map_some']
    refine ⟨_, rfl, ?_, rfl⟩
    show dictGet (copyMatchesAux (max_id (dest.matches'.map MatchRow.id)) 1
        (fun _ => none) src.matches').1 r.match_id = none
    rw [hx]
    exact copyMatchesAux_map_notMem _ _ 1 (fun _ => none) x hnm
  · intro k r x hr hx hnp
    have hev : (merge_db_tables dest src).events
        = dest.events
          ++ copyEvents (max_id (dest.events.map EventRow.id))
              (copyMatches (max_id (dest.matches'.map MatchRow.id)) src.matches').1
              (copyPoints (max_id (dest.points.map PointRow.id))
                (copyMatches (max_id (dest.matches'.map MatchRow.id)) src.matches').1
                src.points).1
              src.events := rfl
    rw [hev, get?_append_skip]
    simp only [copyEvents, copyMatches, copyPoints]
    rw [copyEventsAux_get, hr]
    simp only [Option.map_some']
    refine ⟨_, rfl, ?_, rfl⟩
    simp only [hx]
    exact copyPointsAux_map_notMem _ _ src.points 1 (fun _ => none) x hnp
  · intro k r x hr hx hnm
    have hdb : (merge_db_tables dest src).debug_events
        = dest.debug_events
          ++ copyDebugEvents (max_id (dest.debug_events.map DebugEventRow.id))
              (copyMatches (max_id (dest.matches'.map MatchRow.id)) src.matches').1
              src.debug_events := rfl
    rw [hdb, get?_append_skip]
    simp only [copyDebugEvents, copyMatches]
    rw [copyDebugEventsAux_get, hr]
    simp only [Option.map_some']
    refine ⟨_, rfl, ?_, rfl⟩
    show dictGet (copyMatchesAux (max_id (dest.matches'.map MatchRow.id)) 1
        (fun _ => none) src.matches').1 r.match_id = none
    rw [hx]
    exact copyMatchesAux_map_notMem _ _ 1 (fun _ => none) x hnm

/-- Witness for C8: srcDangling's rows reference match id 99 and point id
98, which do not exist in the store; the copies land with null keys. -/
theorem dangling_fk_nulled_witness :
    (srcDangling.points.get? 0 = some (samplePoint 4 (some 99)) ∧
        (samplePoint 4 (some 99)).match_id = some 99 ∧
        (99 : Int) ∉ srcDangling.matches'.map MatchRow.id) ∧
      (∃ o : PointRow,
        (merge_db_tables emptyStore srcDangling).points.get?
            (emptyStore.points.length + 0) = some o ∧
          o.match_id = none ∧
          o = { samplePoint 4 (some 99) with id := o.id, match_id := o.match_id }) ∧
      (∃ o : EventRow,
        (merge_db_tables emptyStore srcDangling).events.get?
            (emptyStore.events.length + 0) = some o ∧
          o.point_id = none ∧
          o = { sampleEvent 4 (some 99) (some 98) with id := o.id, match_id := o.match_id, point_id := o.point_id }) :=
  ⟨⟨by decide, by decide, by decide⟩,
    (dangling_fk_nulled emptyStore srcDangling).1 0 (samplePoint 4 (some 99)) 99
      (by decide) (by decide) (by decide),
    (dangling_fk_nulled emptyStore srcDangling).2.2.2.1 0
      (sampleEvent 4 (some 99) (some 98)) 98 (by decide) (by decide) (by decide)⟩

/-- C7: a storage error raised while copying tables for source number j
propagates and aborts the run: no later source is merged, and the closed
destination file holds exactly the failure-free merge of the first j
manifest entries, the failing source's rows absent, because each pass
commits its insertions only at its end. -/
theorem midrun_failure_prefix (srcs : List SrcFile) (d0 : Store) (j k : Nat)
    (s : SrcFile) (db : Store)
    (hj : srcs.get? j = some s) (hdb : s.contents = some db)
    (hk : k < totalRows db) :
    abortedCommitted
        (mergeRunAborting { committed := d0, working := d0 } srcs (some (j, k)))
      = some (pureRun d0 (srcs.take j)) := by
  revert hj
  induction j generalizing srcs d0 with
  | zero =>
    intro hj
    cases srcs with
    | nil => simp at hj
    | cons s0 rest =>
      have hs0 : s0 = s := by simpa using hj
      subst hs0
      have hops : k < (passOps d0 db).length := by rw [passOps_length]; exact hk
      simp [mergeRunAborting, execPass, hdb, hops, abortedCommitted, pureRun]
  | succ j ih =>
    intro hj
    cases srcs with
    | nil => simp at hj
    | cons s0 rest =>
      have hj' : rest.get? j = some s := by simpa using hj
      cases hc : s0.contents with
      | none =>
        have hstep : mergeRunAborting { committed := d0, working := d0 }
              (s0 :: rest) (some (j + 1, k))
            = mergeRunAborting { committed := d0, working := d0 } rest (some (j, k)) := by
          simp [mergeRunAborting, execPass, hc]
        rw [hstep, ih rest d0 hj']
        rw [List.take_succ_cons]
        have : pureRun d0 (s0 :: rest.take j) = pureRun d0 (rest.take j) := by
          simp [pureRun, hc]
        rw [this]
      | some db0 =>
        have hstep : mergeRunAborting { committed := d0, working := d0 }
              (s0 :: rest) (some (j + 1, k))
            = mergeRunAborting
                { committed := merge_db_tables d0 db0,
                  working := merge_db_tables d0 db0 } rest (some (j, k)) := by
          simp [mergeRunAborting, execPass, hc, runOps_passOps]
        rw [hstep, ih rest (merge_db_tables d0 db0) hj']
        rw [List.take_succ_cons]
        have : pureRun d0 (s0 :: rest.take j)
            = pureRun (merge_db_tables d0 db0) (rest.take j) := by
          simp [pureRun, hc]
        rw [this]

/-- Witness for C7: three listed sources with a storage error at the first
insert of the middle one; the file keeps exactly the first source's rows. -/
theorem midrun_failure_prefix_witness :
    (([⟨"a", some srcA⟩, ⟨"b", some srcB⟩, ⟨"c", some srcA⟩] : List SrcFile).get? 1
          = some ⟨"b", some srcB⟩ ∧
        (⟨"b", some srcB⟩ : SrcFile).contents = some srcB ∧
        0 < totalRows srcB) ∧
      abortedCommitted
          (mergeRunAborting { committed := emptyStore, working := emptyStore }
            [⟨"a", some srcA⟩, ⟨"b", some srcB⟩, ⟨"c", some srcA⟩] (some (1, 0)))
        = some (pureRun emptyStore
            (([⟨"a", some srcA⟩, ⟨"b", some srcB⟩, ⟨"c", some srcA⟩] : List SrcFile).take 1)) :=
  ⟨⟨by decide, by decide, by decide⟩,
    midrun_failure_prefix [⟨"a", some srcA⟩, ⟨"b", some srcB⟩, ⟨"c", some srcA⟩]
      emptyStore 1 0 ⟨"b", some srcB⟩ srcB (by decide) (by decide) (by decide)⟩
